import Mathlib

/-!
Verification of the `lan_tuya` device communication stack.

This file gives a shallow embedding, in Lean 4, of the core of the
repository (`tuya_protocol.py`, `device.py`, `device_scanner.py`,
`tuya_platform.py`) and proves or refutes the frozen claims about it.

Modelling conventions:
* `bytes` values are `List Nat` with every element intended `< 256`.
* Python `str` keys/ids are Lean `String`; their UTF-8 bytes (ASCII in all
  uses here) are obtained with `strBytes`.
* The external crypto library (`Crypto.Cipher.AES`, `hashlib.md5`,
  `base64`) is not code of this repository; it enters the embedding as a
  parameter record `Crypto` of raw primitives.  Everything the repository
  itself does (PKCS padding, header and signature construction, framing,
  CRC32 via `binascii.crc32`, JSON templating) is embedded concretely.
* Fallible Python code (raising) is embedded with `Option`/`Except`.
-/

set_option maxRecDepth 100000

/-- UTF-8 bytes of a string (ASCII in every use this file makes). -/
def strBytes (s : String) : List Nat := s.data.map Char.toNat

/-- `message.replace(" ", "")` on serialized JSON: drop every space byte. -/
def stripSpaces (l : List Nat) : List Nat := l.filter (fun b => b ≠ 32)

/-- Big-endian 4-byte encoding of a 32-bit word (`struct.pack(">I", n)`). -/
def be32 (n : Nat) : List Nat :=
  [n / 16777216 % 256, n / 65536 % 256, n / 256 % 256, n % 256]

/-- Big-endian 32-bit read of the first four bytes (`struct.unpack(">I", _)`). -/
def readBe32 (l : List Nat) : Nat :=
  match l with
  | a :: b :: c :: d :: _ => ((a * 256 + b) * 256 + c) * 256 + d
  | _ => 0

/-- One bit step of CRC-32 (polynomial 0xEDB88320), as in `binascii.crc32`. -/
def crc32Round (c : Nat) : Nat :=
  if c % 2 = 1 then (c / 2) ^^^ 0xEDB88320 else c / 2

/-- One byte step of CRC-32. -/
def crc32Byte (c b : Nat) : Nat :=
  crc32Round (crc32Round (crc32Round (crc32Round
    (crc32Round (crc32Round (crc32Round (crc32Round (c ^^^ b))))))))

/-- `binascii.crc32` over a byte list. -/
def crc32 (data : List Nat) : Nat :=
  (data.foldl crc32Byte 0xFFFFFFFF) ^^^ 0xFFFFFFFF

example : crc32 (strBytes "123456789") = 0xCBF43926 := by rfl

theorem readBe32_be32 (n : Nat) (rest : List Nat) (h : n < 4294967296) :
    readBe32 (be32 n ++ rest) = n := by
  simp only [be32, readBe32, List.cons_append]
  omega

theorem length_be32 (n : Nat) : (be32 n).length = 4 := rfl

theorem take_length_append (l1 l2 : List Nat) : (l1 ++ l2).take l1.length = l1 := by
  induction l1 with
  | nil => rfl
  | cons a t ih => simp [ih]

theorem drop_length_append (l1 l2 : List Nat) : (l1 ++ l2).drop l1.length = l2 := by
  induction l1 with
  | nil => rfl
  | cons a t ih => simp [ih]

/-! ## JSON values and `json.dumps`

`_generate_payload` serializes a Python dict with `json.dumps` and then
removes every space with `.replace(" ", "")`.  `dumpsVal` below produces
the same bytes as `json.dumps` up to space characters (it uses separators
"," and ":" where `json.dumps` defaults to ", " and ": "); composing with
`stripSpaces` therefore models `json.dumps(x).replace(" ", "")` exactly
(string escaping is not modelled; ids, keys and codes here are plain). -/

/-- A JSON value as it appears in the payload templates: a string, a
number, a boolean, an array of numbers (the `dpId` template value
`[18, 19, 20]`), or — for the universally quantified `data` argument of
`_generate_payload` — an arbitrary JSON value represented by the bytes of
its (space-stripped-compatible) `json.dumps` serialization. -/
inductive JVal where
  | jstr : String → JVal
  | jnum : Int → JVal
  | jbool : Bool → JVal
  | jnumarr : List Int → JVal
  | jraw : List Nat → JVal

/-- Comma-separated concatenation of serialized items. -/
def commaSep : List (List Nat) → List Nat
  | [] => []
  | [x] => x
  | x :: y :: r => x ++ [44] ++ commaSep (y :: r)

/-- Serialize one JSON value (byte 34 is the double quote). -/
def dumpsVal : JVal → List Nat
  | .jstr s => [34] ++ strBytes s ++ [34]
  | .jnum n => strBytes (toString n)
  | .jbool b => strBytes (if b then "true" else "false")
  | .jnumarr xs => [91] ++ commaSep (xs.map (fun n => strBytes (toString n))) ++ [93]
  | .jraw bs => bs

/-- Serialize the fields of a JSON object (byte 58 is the colon, 44 the
comma). -/
def dumpsFields : List (String × JVal) → List Nat
  | [] => []
  | [(k, v)] => [34] ++ strBytes k ++ [34, 58] ++ dumpsVal v
  | (k, v) :: kv :: r =>
      [34] ++ strBytes k ++ [34, 58] ++ dumpsVal v ++ [44] ++ dumpsFields (kv :: r)

/-- Serialize a JSON object (bytes 123/125 are the braces). -/
def dumpsObj (fs : List (String × JVal)) : List Nat :=
  [123] ++ dumpsFields fs ++ [125]

/-! ## External crypto primitives

`AESCipher` wraps `Crypto.Cipher.AES` (ECB mode), `b64encode`/`b64decode`
wrap `base64`, and `md5hex` wraps `hashlib.md5(...).hexdigest().encode()`.
These library primitives are not part of this repository; the embedding
takes them as parameters.  `ecbEnc`/`ecbDec` take the key bytes and the
(block-padded) data; `md5hex` returns the 32 ASCII hex digest bytes. -/

structure Crypto where
  ecbEnc : List Nat → List Nat → List Nat
  ecbDec : List Nat → List Nat → List Nat
  b64enc : List Nat → List Nat
  b64dec : List Nat → List Nat
  md5hex : List Nat → List Nat

/-- `AESCipher._pad`: PKCS#7-style padding to the 16-byte block size. -/
def aesPad (s : List Nat) : List Nat :=
  s ++ List.replicate (16 - s.length % 16) (16 - s.length % 16)

/-- `AESCipher._unpad`: `s[: -ord(s[len(s)-1:])]`.  (In Python a final byte
of 0 yields `s[:-0] = s[:0] = b""`, and an empty input raises; both edges
are outside every use in this file.) -/
def aesUnpad (s : List Nat) : List Nat :=
  if s.getLastD 0 = 0 then [] else s.take (s.length - s.getLastD 0)

/-- `AESCipher.encrypt(raw, use_base64)`. -/
def AESCipher.encrypt (c : Crypto) (key raw : List Nat) (useBase64 : Bool) : List Nat :=
  let ct := c.ecbEnc key (aesPad raw)
  if useBase64 then c.b64enc ct else ct

/-- `AESCipher.decrypt(enc, use_base64)` (the final UTF-8 decode is kept at
the byte level). -/
def AESCipher.decrypt (c : Crypto) (key enc : List Nat) (useBase64 : Bool) : List Nat :=
  let ct := if useBase64 then c.b64dec enc else enc
  aesUnpad (c.ecbDec key ct)

theorem aesUnpad_aesPad (s : List Nat) : aesUnpad (aesPad s) = s := by
  have hlt : s.length % 16 < 16 := Nat.mod_lt _ (by omega)
  have hpos : 0 < 16 - s.length % 16 := by omega
  obtain ⟨m, hm⟩ : ∃ m, 16 - s.length % 16 = m + 1 :=
    ⟨16 - s.length % 16 - 1, by omega⟩
  have hsplit : aesPad s =
      (s ++ List.replicate m (16 - s.length % 16)) ++ [16 - s.length % 16] := by
    unfold aesPad
    rw [List.append_assoc]
    congr 1
    rw [hm, List.replicate_succ']
  have hlast : (aesPad s).getLastD 0 = 16 - s.length % 16 := by
    rw [hsplit, List.getLastD_concat]
  have hlen : (aesPad s).length = s.length + (16 - s.length % 16) := by
    unfold aesPad; simp
  unfold aesUnpad
  rw [hlast, if_neg (by omega), hlen]
  have : s.length + (16 - s.length % 16) - (16 - s.length % 16) = s.length := by omega
  rw [this]
  exact take_length_append s (List.replicate (16 - s.length % 16) (16 - s.length % 16))

/-! ## Protocol constants and command tables (`tuya_protocol.py`) -/

/-- `PROTOCOL_VERSION_BYTES_31 = b"3.1"`. -/
def protocolVersionBytes31 : List Nat := strBytes "3.1"

/-- `PROTOCOL_VERSION_BYTES_33 = b"3.3"`. -/
def protocolVersionBytes33 : List Nat := strBytes "3.3"

/-- `PROTOCOL_33_HEADER = PROTOCOL_VERSION_BYTES_33 + 12 * b"\x00"`. -/
def protocol33Header : List Nat := protocolVersionBytes33 ++ List.replicate 12 0

def PREFIX_VALUE : Nat := 0x000055AA
def SUFFIX_VALUE : Nat := 0x0000AA55

def AP_CONFIG : Nat := 1
def CONTROL : Nat := 7
def STATUS : Nat := 8
def HEART_BEAT : Nat := 9
def DP_QUERY : Nat := 10
def CONTROL_NEW : Nat := 13
def DP_QUERY_NEW : Nat := 16
def UPDATEDPS : Nat := 18

/-- `TUYA_COMMANDS["default"][command]["command"]`: the ordered payload
template dict (dicts keep insertion order). -/
def commandTemplate : Nat → Option (List (String × JVal))
  | 1 => some [("gwId", .jstr ""), ("devId", .jstr ""), ("uid", .jstr ""), ("t", .jstr "")]
  | 7 => some [("devId", .jstr ""), ("uid", .jstr ""), ("t", .jstr "")]
  | 8 => some [("gwId", .jstr ""), ("devId", .jstr "")]
  | 9 => some [("gwId", .jstr ""), ("devId", .jstr "")]
  | 10 => some [("gwId", .jstr ""), ("devId", .jstr ""), ("uid", .jstr ""), ("t", .jstr "")]
  | 13 => some [("devId", .jstr ""), ("uid", .jstr ""), ("t", .jstr "")]
  | 16 => some [("devId", .jstr ""), ("uid", .jstr ""), ("t", .jstr "")]
  | 18 => some [("dpId", .jnumarr [18, 19, 20])]
  | _ => none

/-- `TUYA_COMMANDS["default"][command]["hexByte"]`. -/
def commandHexByte : Nat → Option String
  | 1 => some "01"
  | 7 => some "07"
  | 8 => some "08"
  | 9 => some "09"
  | 10 => some "0a"
  | 13 => some "0d"
  | 16 => some "0f"
  | 18 => some "12"
  | _ => none

/-- Value of one lowercase hex digit. -/
def hexDigit (c : Char) : Nat :=
  if c.toNat ≥ 97 then c.toNat - 87 else c.toNat - 48

/-- `int(command_hb, 16)`. -/
def hexVal (s : String) : Nat :=
  s.data.foldl (fun a c => a * 16 + hexDigit c) 0

/-- Does `l` start with the byte string given as the first argument?
(The recursion is driven by the head pattern, which is a concrete byte
string in every use.) -/
def hasByteHead : List Nat → List Nat → Bool
  | [], _ => true
  | _ :: _, [] => false
  | b :: pt, a :: lt => a == b && hasByteHead pt lt

/-- `l.startswith(p)` (`bytes.startswith`). -/
def leadsWith (l p : List Nat) : Bool := hasByteHead p l

/-- `json_data[k] = v` when `k` already exists (dicts keep the position). -/
def setIfPresent (fs : List (String × JVal)) (k : String) (v : JVal) :
    List (String × JVal) :=
  if fs.any (fun p => p.1 = k) then
    fs.map (fun p => if p.1 = k then (k, v) else p)
  else fs

/-- The four `if "gwId" in json_data: ...` field fills of `_generate_payload`. -/
def fillTemplate (fs : List (String × JVal)) (id ts : String) : List (String × JVal) :=
  setIfPresent (setIfPresent (setIfPresent (setIfPresent fs
    "gwId" (.jstr id)) "devId" (.jstr id)) "uid" (.jstr id)) "t" (.jstr ts)

/-- `if data is not None: json_data["dpId"] = data` when the template has a
`dpId` key, else `json_data["dps"] = data` (a fresh key is appended). -/
def addData (fs : List (String × JVal)) (data : Option JVal) : List (String × JVal) :=
  match data with
  | none => fs
  | some d =>
      if fs.any (fun p => p.1 = "dpId") then setIfPresent fs "dpId" d
      else fs ++ [("dps", d)]

/-- The serialized JSON message of `_generate_payload`:
`json.dumps(json_data).replace(" ", "").encode("utf-8")`.
`none` models the `KeyError` on a command absent from `TUYA_COMMANDS`. -/
def messageBytes (command : Nat) (id ts : String) (data : Option JVal) :
    Option (List Nat) :=
  (commandTemplate command).map
    (fun t => stripSpaces (dumpsObj (addData (fillTemplate t id ts) data)))

/-! ## Frame packing and unpacking -/

/-- `TuyaRequest` (request message: seqno, cmd, payload). -/
structure TuyaRequest where
  seqno : Nat
  cmd : Nat
  payload : List Nat
deriving DecidableEq

/-- `TuyaResponse` (response message: seqno, cmd, payload, retcode, crc). -/
structure TuyaResponse where
  seqno : Nat
  cmd : Nat
  payload : List Nat
  retcode : Nat
  crc : Nat
deriving DecidableEq

/-- The pre-checksum buffer of `_pack_message`: the `>4I` header (prefix,
seqno, cmd, payload length + `struct.calcsize(MESSAGE_END_FMT)` = 8)
followed by the payload. -/
def packBody (seqno cmd : Nat) (payload : List Nat) : List Nat :=
  be32 PREFIX_VALUE ++ be32 seqno ++ be32 cmd ++ be32 (payload.length + 8) ++ payload

/-- `TuyaProtocol._pack_message`: the buffer above, then `>2I`
(crc32 of the buffer masked to 32 bits, magic suffix). -/
def TuyaProtocol.packMessage (m : TuyaRequest) : List Nat :=
  let buffer := packBody m.seqno m.cmd m.payload
  buffer ++ be32 (crc32 buffer &&& 0xFFFFFFFF) ++ be32 SUFFIX_VALUE

/-- `TuyaProtocol.unpack_message`: reads the five-word `>5I` receive header
(prefix, seqno, cmd, length, retcode), slices `payload = data[20:-8]`, and
reads the crc from `data[-8:-4]`.  `none` models the `struct.error` raised
when fewer than 20 header bytes (or 8 trailer bytes) are available. -/
def TuyaProtocol.unpackMessage (data : List Nat) : Option TuyaResponse :=
  if data.length < 20 then none
  else some
    { seqno := readBe32 (data.drop 4)
      cmd := readBe32 (data.drop 8)
      payload := (data.drop 20).take (data.length - 28)
      retcode := readBe32 (data.drop 16)
      crc := readBe32 (data.drop (data.length - 8)) }

/-- Errors `_generate_payload` can raise: `KeyError` on an unknown command,
`NotImplementedError` on hexByte "0d" (`CONTROL_NEW`). -/
inductive GenErr where
  | keyError
  | notImplemented
deriving DecidableEq

/-- The payload-construction part of `TuyaProtocol._generate_payload`
(everything before `_pack_message`): template fill, JSON serialization,
version-"3.3" encryption, and the header/signature branch

    if command_hb != "0a" and command_hb != "12":
        payload = PROTOCOL_33_HEADER + payload
    elif command == CONTROL:
        ... AES + base64 + md5 signature ...
-/
def buildPayload (c : Crypto) (command : Nat) (id localKey version timestamp : String)
    (data : Option JVal) : Except GenErr (List Nat) :=
  match commandTemplate command, commandHexByte command with
  | some tmpl, some hb =>
      let jd := addData (fillTemplate tmpl id timestamp) data
      if hb = "0d" then .error .notImplemented
      else
        let message := stripSpaces (dumpsObj jd)
        let bkey := strBytes localKey
        let payload := if version = "3.3" then AESCipher.encrypt c bkey message false
                       else message
        if hb ≠ "0a" ∧ hb ≠ "12" then .ok (protocol33Header ++ payload)
        else if command = CONTROL then
          let p := AESCipher.encrypt c bkey payload true
          let pre := strBytes "data=" ++ p ++ strBytes "||lpv="
              ++ protocolVersionBytes31 ++ strBytes "||" ++ bkey
          .ok (protocolVersionBytes31 ++ ((c.md5hex pre).drop 8).take 16 ++ p)
        else .ok payload
  | _, _ => .error .keyError

/-- `TuyaProtocol._generate_payload`: build the payload, then pack it into
a frame with `int(command_hb, 16)` as the command word. -/
def TuyaProtocol.generatePayload (c : Crypto) (command : Nat)
    (id localKey version timestamp : String) (sequenceNumber : Nat)
    (data : Option JVal) : Except GenErr (List Nat) :=
  match commandHexByte command with
  | some hb =>
      (buildPayload c command id localKey version timestamp data).map
        (fun p => TuyaProtocol.packMessage ⟨sequenceNumber, hexVal hb, p⟩)
  | none => .error .keyError

/-- `ValueError("Unexpected payload")` in `_decode_payload`. -/
inductive DecErr where
  | unexpectedPayload
deriving DecidableEq

/-- `TuyaProtocol._decode_payload`. -/
def TuyaProtocol.decodePayload (c : Crypto) (localKey version : String)
    (payload : List Nat) : Except DecErr (List Nat) :=
  if payload = [] then .ok []
  else
    let bkey := strBytes localKey
    if leadsWith payload protocolVersionBytes31 then
      -- strip b"3.1", skip the 16 signature bytes, base64+AES decrypt
      .ok (AESCipher.decrypt c bkey
        ((payload.drop protocolVersionBytes31.length).drop 16) true)
    else if version = "3.3" then
      let p2 := if leadsWith payload protocolVersionBytes33 then
          payload.drop protocol33Header.length
        else payload
      .ok (if p2 = [] then [] else AESCipher.decrypt c bkey p2 false)
    else if leadsWith payload [123] then  -- payload.startswith(b"\x7b")
      .ok payload
    else .error .unexpectedPayload

/-! ## Frame layout lemmas -/

theorem crc32Round_lt (c : Nat) (h : c < 4294967296) : crc32Round c < 4294967296 := by
  unfold crc32Round
  split
  · have := @Nat.xor_lt_two_pow (c / 2) 0xEDB88320 32 (by omega) (by omega)
    omega
  · omega

theorem crc32Byte_lt (c b : Nat) (hc : c < 4294967296) (hb : b < 256) :
    crc32Byte c b < 4294967296 := by
  unfold crc32Byte
  have h0 : c ^^^ b < 4294967296 := by
    have := @Nat.xor_lt_two_pow c b 32 (by omega) (by omega)
    omega
  exact crc32Round_lt _ (crc32Round_lt _ (crc32Round_lt _ (crc32Round_lt _
    (crc32Round_lt _ (crc32Round_lt _ (crc32Round_lt _ (crc32Round_lt _ h0)))))))

theorem foldl_crc32Byte_lt (data : List Nat) (acc : Nat)
    (hacc : acc < 4294967296) (h : ∀ b ∈ data, b < 256) :
    data.foldl crc32Byte acc < 4294967296 := by
  induction data generalizing acc with
  | nil => simpa using hacc
  | cons a t ih =>
      simp only [List.foldl_cons]
      exact ih _ (crc32Byte_lt _ _ hacc (h a (by simp))) (fun b hb => h b (by simp [hb]))

theorem crc32_lt (data : List Nat) (h : ∀ b ∈ data, b < 256) :
    crc32 data < 4294967296 := by
  unfold crc32
  have h1 := foldl_crc32Byte_lt data 0xFFFFFFFF (by norm_num) h
  have := @Nat.xor_lt_two_pow (data.foldl crc32Byte 0xFFFFFFFF) 0xFFFFFFFF 32
    (by omega) (by omega)
  omega

theorem land_mask_of_lt (n : Nat) (h : n < 4294967296) :
    n &&& 0xFFFFFFFF = n := by
  have h2 := Nat.and_pow_two_sub_one_eq_mod n 32
  norm_num at h2
  omega

theorem be32_mem_lt (n : Nat) : ∀ b ∈ be32 n, b < 256 := by
  intro b hb
  simp only [be32, List.mem_cons, List.not_mem_nil, or_false] at hb
  rcases hb with rfl | rfl | rfl | rfl <;> exact Nat.mod_lt _ (by norm_num)

theorem drop4_be32 (n : Nat) (rest : List Nat) : (be32 n ++ rest).drop 4 = rest := rfl

theorem drop8_be32 (n : Nat) (rest : List Nat) :
    (be32 n ++ rest).drop 8 = rest.drop 4 := rfl

theorem drop12_be32 (n : Nat) (rest : List Nat) :
    (be32 n ++ rest).drop 12 = rest.drop 8 := rfl

theorem packBody_bytes_lt (seqno cmd : Nat) (payload : List Nat)
    (hb : ∀ b ∈ payload, b < 256) : ∀ b ∈ packBody seqno cmd payload, b < 256 := by
  intro b hbm
  simp only [packBody, List.mem_append] at hbm
  rcases hbm with ((((h | h) | h) | h) | h)
  · exact be32_mem_lt _ b h
  · exact be32_mem_lt _ b h
  · exact be32_mem_lt _ b h
  · exact be32_mem_lt _ b h
  · exact hb b h

theorem packBody_length (seqno cmd : Nat) (payload : List Nat) :
    (packBody seqno cmd payload).length = payload.length + 16 := by
  simp [packBody, be32]
  try omega

theorem pack_eq (seqno cmd : Nat) (payload : List Nat) (hb : ∀ b ∈ payload, b < 256) :
    TuyaProtocol.packMessage ⟨seqno, cmd, payload⟩
      = packBody seqno cmd payload
        ++ be32 (crc32 (packBody seqno cmd payload)) ++ be32 SUFFIX_VALUE := by
  have hstep : TuyaProtocol.packMessage ⟨seqno, cmd, payload⟩
      = packBody seqno cmd payload
        ++ be32 (crc32 (packBody seqno cmd payload) &&& 0xFFFFFFFF)
        ++ be32 SUFFIX_VALUE := rfl
  rw [hstep, land_mask_of_lt _ (crc32_lt _ (packBody_bytes_lt seqno cmd payload hb))]

/-- **C4**: the packed request frame is the four big-endian 32-bit words
(magic prefix `0x000055AA`, sequence number, command code, payload length
plus the 8-byte checksum+suffix size), the payload, the big-endian CRC32
of everything from the prefix through the payload, and the big-endian
magic suffix `0x0000AA55`; the checksum word equals the CRC32 of the whole
frame minus its last 8 bytes. -/
theorem C4_pack_frame_layout (seqno cmd : Nat) (payload : List Nat)
    (h1 : seqno < 4294967296) (h2 : cmd < 4294967296)
    (h3 : payload.length + 8 < 4294967296) (hbytes : ∀ b ∈ payload, b < 256) :
    TuyaProtocol.packMessage ⟨seqno, cmd, payload⟩
        = be32 PREFIX_VALUE ++ be32 seqno ++ be32 cmd ++ be32 (payload.length + 8)
          ++ payload ++ be32 (crc32 (packBody seqno cmd payload)) ++ be32 SUFFIX_VALUE
      ∧ PREFIX_VALUE = 0x000055AA
      ∧ SUFFIX_VALUE = 0x0000AA55
      ∧ readBe32 (TuyaProtocol.packMessage ⟨seqno, cmd, payload⟩) = 0x000055AA
      ∧ readBe32 ((TuyaProtocol.packMessage ⟨seqno, cmd, payload⟩).drop 4) = seqno
      ∧ readBe32 ((TuyaProtocol.packMessage ⟨seqno, cmd, payload⟩).drop 8) = cmd
      ∧ readBe32 ((TuyaProtocol.packMessage ⟨seqno, cmd, payload⟩).drop 12)
          = payload.length + 8
      ∧ (TuyaProtocol.packMessage ⟨seqno, cmd, payload⟩).length = payload.length + 24
      ∧ readBe32 ((TuyaProtocol.packMessage ⟨seqno, cmd, payload⟩).drop
            (payload.length + 16))
          = crc32 ((TuyaProtocol.packMessage ⟨seqno, cmd, payload⟩).take
            (payload.length + 16)) := by
  have hp := pack_eq seqno cmd payload hbytes
  have hBlen := packBody_length seqno cmd payload
  have hcrclt := crc32_lt (packBody seqno cmd payload)
      (packBody_bytes_lt seqno cmd payload hbytes)
  have hflat : TuyaProtocol.packMessage ⟨seqno, cmd, payload⟩
      = be32 PREFIX_VALUE ++ (be32 seqno ++ (be32 cmd ++ (be32 (payload.length + 8)
        ++ (payload ++ (be32 (crc32 (packBody seqno cmd payload))
          ++ be32 SUFFIX_VALUE))))) := by
    rw [hp]
    simp [packBody, List.append_assoc]
  refine ⟨?_, rfl, rfl, ?_, ?_, ?_, ?_, ?_, ?_⟩
  · rw [hp]
    simp [packBody, List.append_assoc]
  · rw [hflat, readBe32_be32 _ _ (by norm_num [PREFIX_VALUE])]
    rfl
  · rw [hflat, drop4_be32, readBe32_be32 _ _ h1]
  · rw [hflat, drop8_be32, drop4_be32, readBe32_be32 _ _ h2]
  · rw [hflat, drop12_be32, drop8_be32, drop4_be32, readBe32_be32 _ _ h3]
  · rw [hp]
    simp [packBody, be32]
    try omega
  · rw [hp, List.append_assoc]
    rw [show payload.length + 16 = (packBody seqno cmd payload).length from by omega]
    rw [drop_length_append, take_length_append]
    exact readBe32_be32 _ _ hcrclt

/-- View an `Except` as a sum (for deciding equality). -/
def exceptToSum {ε α : Type} : Except ε α → ε ⊕ α
  | .error e => .inl e
  | .ok a => .inr a

instance {ε α : Type} [DecidableEq ε] [DecidableEq α] : DecidableEq (Except ε α) :=
  fun x y =>
    decidable_of_iff (exceptToSum x = exceptToSum y)
      (by cases x <;> cases y <;> simp [exceptToSum])

/-- A trivial instantiation of the crypto primitives (identity functions),
used to evaluate code paths that never reach the crypto library. -/
def cDummy : Crypto :=
  ⟨fun _ s => s, fun _ s => s, fun s => s, fun s => s, fun s => s⟩

/-- An invertible instantiation of the crypto primitives: `ecbEnc` adds one
to every byte, `ecbDec` subtracts one. -/
def cShift : Crypto :=
  ⟨fun _ s => s.map (fun b => b + 1), fun _ s => s.map (fun b => b - 1),
    fun s => s, fun s => s, fun s => s⟩

/-- Witness for C4 at seqno 1, cmd 7, payload `[49]`. -/
theorem C4_pack_frame_layout_witness :
    (1 < 4294967296 ∧ (7:Nat) < 4294967296 ∧ ([49]:List Nat).length + 8 < 4294967296
        ∧ ∀ b ∈ ([49]:List Nat), b < 256)
      ∧ (TuyaProtocol.packMessage ⟨1, 7, [49]⟩).length = ([49]:List Nat).length + 24 :=
  ⟨⟨by decide, by decide, by decide, by decide⟩,
    (C4_pack_frame_layout 1 7 [49] (by decide) (by decide) (by decide)
      (by decide)).2.2.2.2.2.2.2.1⟩

/-- Unpacking a packed frame whose payload starts with a 4-byte return-code
word yields exactly the rest of the payload: the `>5I` receive header
consumes the first payload word as `retcode`. -/
theorem unpack_pack_payload (s c rc : Nat) (rest : List Nat) :
    (TuyaProtocol.unpackMessage (TuyaProtocol.packMessage
        ⟨s, c, be32 rc ++ rest⟩)).map (fun r => r.payload) = some rest := by
  have hlen : (TuyaProtocol.packMessage ⟨s, c, be32 rc ++ rest⟩).length
      = rest.length + 28 := by
    have h1 : TuyaProtocol.packMessage ⟨s, c, be32 rc ++ rest⟩
        = packBody s c (be32 rc ++ rest)
          ++ be32 (crc32 (packBody s c (be32 rc ++ rest)) &&& 0xFFFFFFFF)
          ++ be32 SUFFIX_VALUE := rfl
    rw [h1]
    simp [List.length_append, packBody_length, be32]
    try omega
  obtain ⟨u, v, huv⟩ : ∃ u v, (TuyaProtocol.packMessage ⟨s, c, be32 rc ++ rest⟩).drop 20
      = (rest ++ u) ++ v := ⟨_, _, rfl⟩
  have ht : (TuyaProtocol.packMessage ⟨s, c, be32 rc ++ rest⟩).drop 20
      = rest ++ (u ++ v) := by rw [huv, List.append_assoc]
  unfold TuyaProtocol.unpackMessage
  rw [hlen, if_neg (by omega)]
  simp only [Option.map_some']
  rw [ht]
  have h28 : rest.length + 28 - 28 = rest.length := by omega
  rw [h28]
  exact congrArg some (take_length_append rest (u ++ v))

/-- The serialized message of every supported command starts with the
opening brace byte 123. -/
theorem messageBytes_head (command : Nat) (id ts : String) (data : Option JVal)
    (msg : List Nat) (h : messageBytes command id ts data = some msg) :
    ∃ t, msg = 123 :: t := by
  unfold messageBytes at h
  cases htm : commandTemplate command with
  | none => rw [htm] at h; simp at h
  | some tmpl =>
      rw [htm] at h
      simp only [Option.map_some', Option.some.injEq] at h
      refine ⟨stripSpaces (dumpsFields (addData (fillTemplate tmpl id ts) data) ++ [125]), ?_⟩
      rw [← h]
      rfl

/-- Decoding a version-"3.3" payload that carries the `PROTOCOL_33_HEADER`
recovers the plaintext, for any ECB primitive pair that round-trips. -/
theorem decodePayload_33_header (c : Crypto) (key : String) (msg : List Nat)
    (hdec : ∀ s, c.ecbDec (strBytes key) (c.ecbEnc (strBytes key) s) = s)
    (hctne : c.ecbEnc (strBytes key) (aesPad msg) ≠ []) :
    TuyaProtocol.decodePayload c key "3.3"
        (protocol33Header ++ c.ecbEnc (strBytes key) (aesPad msg)) = .ok msg := by
  have hstep : TuyaProtocol.decodePayload c key "3.3"
      (protocol33Header ++ c.ecbEnc (strBytes key) (aesPad msg))
      = .ok (if c.ecbEnc (strBytes key) (aesPad msg) = [] then []
             else AESCipher.decrypt c (strBytes key)
               (c.ecbEnc (strBytes key) (aesPad msg)) false) := rfl
  rw [hstep, if_neg hctne]
  unfold AESCipher.decrypt
  simp only [Bool.false_eq_true, if_false]
  rw [hdec, aesUnpad_aesPad]

/-- Decoding a version-"3.3" payload without the header (query/refresh
commands) recovers the plaintext when the ciphertext does not accidentally
start with b"3.1" or b"3.3". -/
theorem decodePayload_33_noheader (c : Crypto) (key : String) (msg : List Nat)
    (hdec : ∀ s, c.ecbDec (strBytes key) (c.ecbEnc (strBytes key) s) = s)
    (hctne : c.ecbEnc (strBytes key) (aesPad msg) ≠ [])
    (hno31 : leadsWith (c.ecbEnc (strBytes key) (aesPad msg))
      protocolVersionBytes31 = false)
    (hno33 : leadsWith (c.ecbEnc (strBytes key) (aesPad msg))
      protocolVersionBytes33 = false) :
    TuyaProtocol.decodePayload c key "3.3"
        (c.ecbEnc (strBytes key) (aesPad msg)) = .ok msg := by
  unfold TuyaProtocol.decodePayload
  rw [if_neg hctne]
  simp only [hno31, hno33, Bool.false_eq_true, if_false, if_pos rfl]
  rw [if_neg hctne]
  unfold AESCipher.decrypt
  simp only [Bool.false_eq_true, if_false]
  rw [hdec, aesUnpad_aesPad]
  simp

/-- Decoding a plain-JSON payload (starting with byte 123) under a version
other than "3.3" returns it unchanged. -/
theorem decodePayload_31_plain (c : Crypto) (key : String) (t : List Nat) :
    TuyaProtocol.decodePayload c key "3.1" (123 :: t) = .ok (123 :: t) := rfl

/-- **C1** is refuted by the code (code bug): under protocol version "3.1"
the control/set-state command's payload is NOT AES-encrypted and NOT
signed.  Because `CONTROL`'s hexByte is `"07"`, the branch
`if command_hb != "0a" and command_hb != "12"` fires first and the
`elif command == CONTROL` encryption branch is unreachable: for every
choice of crypto primitives, device id, key and data map, the encoded
payload is the `PROTOCOL_33_HEADER` followed by the plaintext JSON, and
does not start with b"3.1". -/
theorem C1_v31_control_payload_not_encrypted (c : Crypto) (id key ts : String)
    (d : JVal) (msg : List Nat)
    (hmsg : messageBytes CONTROL id ts (some d) = some msg) :
    buildPayload c CONTROL id key "3.1" ts (some d)
        = .ok (protocol33Header ++ msg)
      ∧ leadsWith (protocol33Header ++ msg) protocolVersionBytes31 = false := by
  have hm := Option.some.inj hmsg
  rw [← hm]
  exact ⟨rfl, rfl⟩

/-- Witness for C1 at a concrete input. -/
theorem C1_v31_control_payload_not_encrypted_witness :
    buildPayload cDummy CONTROL "a" "k" "3.1" "1" (some (JVal.jbool true))
        = .ok (protocol33Header
          ++ (messageBytes CONTROL "a" "1" (some (JVal.jbool true))).getD [])
      ∧ leadsWith (protocol33Header
          ++ (messageBytes CONTROL "a" "1" (some (JVal.jbool true))).getD [])
        protocolVersionBytes31 = false :=
  C1_v31_control_payload_not_encrypted cDummy "a" "k" "1" (JVal.jbool true) _ rfl

/-- **C3 (amended)**: under protocol version "3.3" every supported command
(except `CONTROL_NEW`, which raises `NotImplementedError`) AES-128-ECB
encrypts the PKCS-padded JSON payload with no base64, and the result is
prefixed with `PROTOCOL_33_HEADER` (b"3.3" + 12 zero bytes, 15 bytes)
unless the command is the data-point query or the refresh request. -/
theorem C3_v33_payload_encrypted_with_header (c : Crypto) (command : Nat)
    (id key ts : String) (data : Option JVal) (msg : List Nat)
    (hcmd : command ∈ ([1, 7, 8, 9, 10, 16, 18] : List Nat))
    (hmsg : messageBytes command id ts data = some msg) :
    buildPayload c command id key "3.3" ts data
      = .ok ((if command = DP_QUERY ∨ command = UPDATEDPS then []
              else protocol33Header)
          ++ c.ecbEnc (strBytes key) (aesPad msg)) := by
  fin_cases hcmd <;>
    (have hm := Option.some.inj hmsg; rw [← hm]; rfl)

/-- Witness for C3 at command `STATUS` (header present) with concrete
crypto, id, key and timestamp. -/
theorem C3_v33_payload_encrypted_with_header_witness :
    buildPayload cShift STATUS "a" "k" "3.3" "1" none
      = .ok ((if STATUS = DP_QUERY ∨ STATUS = UPDATEDPS then []
              else protocol33Header)
          ++ cShift.ecbEnc (strBytes "k")
            (aesPad ((messageBytes STATUS "a" "1" none).getD []))) :=
  C3_v33_payload_encrypted_with_header cShift STATUS "a" "k" "1" none
    ((messageBytes STATUS "a" "1" none).getD []) (by decide) rfl

/-- **C3 counterexample**: the "3.3" header the code prepends is 15 bytes
(b"3.3" + 12 zero bytes), not 16 bytes as the claim states: no encoded
payload is prefixed by a 16-byte header consisting of those bytes. -/
theorem C3_header_is_not_16_bytes :
    ¬ ∃ rest, buildPayload cDummy STATUS "a" "k" "3.3" "1" none
        = .ok ((strBytes "3.3" ++ List.replicate 12 0) ++ rest)
        ∧ (strBytes "3.3" ++ List.replicate 12 0).length = 16 := by
  rintro ⟨rest, -, h⟩
  exact absurd h (by decide)

/-- **C2 counterexample**: decoding the frame produced by the encoder does
NOT recover the original JSON payload.  `unpack_message` parses the
five-word receive header, so it consumes the first four payload bytes of
the (four-word-header) request frame as a return code: already for the
plainest case — version "3.1", data-point query, no encryption — the
decode of the unpacked payload is a `ValueError`, not the JSON message. -/
theorem C2_roundtrip_counterexample :
    (TuyaProtocol.generatePayload cDummy DP_QUERY "a" "k" "3.1" "1" 1 none).toOption.bind
        (fun f => (TuyaProtocol.unpackMessage f).map
          (fun r => TuyaProtocol.decodePayload cDummy "k" "3.1" r.payload))
      ≠ (messageBytes DP_QUERY "a" "1" none).map
          (fun m => (Except.ok m : Except DecErr (List Nat))) := by
  decide

/-- **C2 (amended)**: the response-frame round-trip.  `_pack_message`
writes a four-word request header while `unpack_message` reads the
five-word receive header, so the frame that round-trips is the one whose
payload carries a leading 4-byte return-code word.  For every supported
command, packing the encoded payload behind a return-code word and then
unpacking and decoding recovers the original JSON message exactly — when
the version is "3.3" (any command, for ECB primitives that round-trip and
whose ciphertext does not start with b"3.1"/b"3.3"), or when the version
is "3.1" and the command is the data-point query or the refresh request
(the only 3.1 commands whose encoded payload is the plain JSON).  (3.1
control/status frames do not round-trip; see C1.) -/
theorem C2_response_frame_roundtrip (c : Crypto) (key id ts version : String)
    (data : Option JVal) (command cmdWord seqno retcode : Nat)
    (msg enc : List Nat)
    (hmsg : messageBytes command id ts data = some msg)
    (henc : buildPayload c command id key version ts data = .ok enc)
    (hdec : ∀ s, c.ecbDec (strBytes key) (c.ecbEnc (strBytes key) s) = s)
    (hctne : c.ecbEnc (strBytes key) (aesPad msg) ≠ [])
    (hno31 : leadsWith (c.ecbEnc (strBytes key) (aesPad msg))
      protocolVersionBytes31 = false)
    (hno33 : leadsWith (c.ecbEnc (strBytes key) (aesPad msg))
      protocolVersionBytes33 = false)
    (hcmd : command ∈ ([1, 7, 8, 9, 10, 16, 18] : List Nat))
    (hver : version = "3.3"
      ∨ (version = "3.1" ∧ (command = DP_QUERY ∨ command = UPDATEDPS))) :
    (TuyaProtocol.unpackMessage (TuyaProtocol.packMessage
        ⟨seqno, cmdWord, be32 retcode ++ enc⟩)).map
      (fun r => TuyaProtocol.decodePayload c key version r.payload)
      = some (.ok msg) := by
  have hup := unpack_pack_payload seqno cmdWord retcode enc
  cases hu : TuyaProtocol.unpackMessage (TuyaProtocol.packMessage
      ⟨seqno, cmdWord, be32 retcode ++ enc⟩) with
  | none => rw [hu] at hup; simp at hup
  | some r =>
      rw [hu] at hup
      simp only [Option.map_some', Option.some.injEq] at hup
      simp only [Option.map_some', Option.some.injEq]
      rw [hup]
      rcases hver with hv33 | ⟨hv31, hqr⟩
      · subst hv33
        fin_cases hcmd <;>
          (have hm := Option.some.inj hmsg
           have he := Except.ok.inj henc
           simp only [] at hm
           rw [← he]
           simp only [reduceIte, AESCipher.encrypt, Bool.false_eq_true, if_false]
           rw [hm]
           first
           | exact decodePayload_33_header c key msg hdec hctne
           | exact decodePayload_33_noheader c key msg hdec hctne hno31 hno33)
      · subst hv31
        obtain ⟨t, ht⟩ := messageBytes_head command id ts data msg hmsg
        rcases hqr with rfl | rfl <;>
          (have hm := Option.some.inj hmsg
           have he := Except.ok.inj henc
           simp only [] at hm
           rw [← he]
           rw [if_neg (show ¬(("3.1" : String) = "3.3") by decide)]
           rw [hm, ht]
           exact decodePayload_31_plain c key t)

/-- The shifting cipher round-trips. -/
theorem cShift_roundtrip (k s : List Nat) :
    cShift.ecbDec k (cShift.ecbEnc k s) = s := by
  show (s.map (fun b => b + 1)).map (fun b => b - 1) = s
  induction s with
  | nil => rfl
  | cons a t ih => simp only [List.map_cons, Nat.add_sub_cancel, ih]

/-- Witness for the amended C2 at command `STATUS`, version "3.3". -/
theorem C2_response_frame_roundtrip_witness :
    (TuyaProtocol.unpackMessage (TuyaProtocol.packMessage
        ⟨1, 8, be32 0 ++ ((buildPayload cShift 8 "a" "k" "3.3" "1" none).toOption.getD [])⟩)).map
      (fun r => TuyaProtocol.decodePayload cShift "k" "3.3" r.payload)
      = some (.ok ((messageBytes 8 "a" "1" none).getD [])) :=
  C2_response_frame_roundtrip cShift "k" "a" "1" "3.3" none 8 8 1 0
    ((messageBytes 8 "a" "1" none).getD [])
    ((buildPayload cShift 8 "a" "k" "3.3" "1" none).toOption.getD [])
    rfl rfl (cShift_roundtrip (strBytes "k"))
    (by decide) (by decide) (by decide) (by decide) (Or.inl rfl)

/-! ## Discovery listener (`device_scanner.py`)

`DeviceScanner._on_device_found_wrapper` deduplicates on the full
`ScanResult` tuple and then calls every registered callback in a plain
`for` loop with no per-callback exception handling; the `try/except: pass`
sits one level up, in `v31PresenseProto.datagram_received`, around the
single wrapper call. -/

/-- `ScanResult` (a NamedTuple; full-tuple equality is the dedup key). -/
structure ScanResult where
  ip : String
  gwId : String
  active : Nat
  ability : Nat
  mode : Nat
  encrypt : Bool
  productKey : String
  version : String
deriving DecidableEq

/-- Outcome of invoking one callback: it returns, or it raises. -/
inductive CbRes where
  | ok
  | err
deriving DecidableEq

/-- Run `for callback in self.on_device_found.values(): callback(data)`:
returns the list of (index, result) invocations actually made, in order,
and whether an exception escaped the loop.  A raising callback is invoked
(delivered) but aborts the loop. -/
def runCbs : List (ScanResult → CbRes) → ScanResult → Nat → List (Nat × ScanResult) × Bool
  | [], _, _ => ([], false)
  | cb :: rest, r, i =>
      match cb r with
      | .ok =>
          let p := runCbs rest r (i + 1)
          ((i, r) :: p.1, p.2)
      | .err => ([(i, r)], true)

/-- `DeviceScanner._on_device_found_wrapper`: drop an already-seen tuple
silently; otherwise record it in `_seen` and broadcast.  Returns the new
seen set, the invocations made, and whether an exception escaped the
wrapper. -/
def onDeviceFoundWrapper (seen : List ScanResult) (cbs : List (ScanResult → CbRes))
    (r : ScanResult) : List ScanResult × List (Nat × ScanResult) × Bool :=
  if r ∈ seen then (seen, [], false)
  else
    let p := runCbs cbs r 0
    (r :: seen, p.1, p.2)

/-- `datagram_received` (after parsing): the wrapper call is guarded by
`try: ... except: pass`, so the escaped-exception flag is discarded and
nothing propagates to the socket read loop. -/
def datagramReceived (seen : List ScanResult) (cbs : List (ScanResult → CbRes))
    (r : ScanResult) : List ScanResult × List (Nat × ScanResult) :=
  let p := onDeviceFoundWrapper seen cbs r
  (p.1, p.2.1)

/-- Feed a list of parsed datagrams through the listener, accumulating
deliveries. -/
def processDatagrams (cbs : List (ScanResult → CbRes)) :
    List ScanResult → List ScanResult → List ScanResult × List (Nat × ScanResult)
  | seen, [] => (seen, [])
  | seen, r :: rest =>
      let p := datagramReceived seen cbs r
      let q := processDatagrams cbs p.1 rest
      (q.1, p.2 ++ q.2)

/-- The invocation list `[(i, r), (i+1, r), ..., (i+n-1, r)]`. -/
def expectedAll (n i : Nat) (r : ScanResult) : List (Nat × ScanResult) :=
  match n with
  | 0 => []
  | k + 1 => (i, r) :: expectedAll k (i + 1) r

/-- The invocation list `[(i, r), ..., (i+n, r)]` (the last entry being the
raising callback). -/
def expectedUpTo (n i : Nat) (r : ScanResult) : List (Nat × ScanResult) :=
  match n with
  | 0 => [(i, r)]
  | k + 1 => (i, r) :: expectedUpTo k (i + 1) r

theorem expectedAll_eq_range (n i : Nat) (r : ScanResult) :
    expectedAll n i r = (List.range n).map (fun j => (i + j, r)) := by
  induction n generalizing i with
  | zero => simp [expectedAll]
  | succ k ih =>
      rw [expectedAll, ih, List.range_succ_eq_map, List.map_cons, List.map_map]
      simp only [Nat.add_zero, List.cons.injEq, true_and]
      apply List.map_congr_left
      intro a ha
      simp only [Function.comp_apply, Prod.mk.injEq, and_true]
      omega

theorem expectedUpTo_eq_range (n i : Nat) (r : ScanResult) :
    expectedUpTo n i r = (List.range n).map (fun j => (i + j, r)) ++ [(i + n, r)] := by
  induction n generalizing i with
  | zero => simp [expectedUpTo]
  | succ k ih =>
      rw [expectedUpTo, ih, List.range_succ_eq_map, List.map_cons, List.map_map,
        List.cons_append]
      simp only [Nat.add_zero, List.cons.injEq, true_and]
      congr 1
      · apply List.map_congr_left
        intro a ha
        simp only [Function.comp_apply, Prod.mk.injEq, and_true]
        omega
      · simp only [List.cons.injEq, Prod.mk.injEq, and_true]
        omega

theorem runCbs_all_ok (cbs : List (ScanResult → CbRes)) (r : ScanResult) (i : Nat)
    (hok : ∀ cb ∈ cbs, cb r = CbRes.ok) :
    runCbs cbs r i = (expectedAll cbs.length i r, false) := by
  induction cbs generalizing i with
  | nil => rfl
  | cons cb rest ih =>
      have h1 : cb r = CbRes.ok := hok cb (List.mem_cons_self _ _)
      have h2 := ih (i + 1) (fun c hc => hok c (List.mem_cons_of_mem _ hc))
      rw [runCbs, h1, h2]
      rfl

theorem runCbs_err_stops (cbs1 cbs2 : List (ScanResult → CbRes))
    (cb : ScanResult → CbRes) (r : ScanResult) (i : Nat)
    (hok : ∀ c ∈ cbs1, c r = CbRes.ok) (herr : cb r = CbRes.err) :
    runCbs (cbs1 ++ cb :: cbs2) r i = (expectedUpTo cbs1.length i r, true) := by
  induction cbs1 generalizing i with
  | nil => rw [List.nil_append, runCbs, herr]; rfl
  | cons c0 rest ih =>
      have h1 : c0 r = CbRes.ok := hok c0 (List.mem_cons_self _ _)
      have h2 := ih (i + 1) (fun c hc => hok c (List.mem_cons_of_mem _ hc))
      rw [List.cons_append, runCbs, h1, h2]
      rfl

/-- A sample discovery announcement. -/
def sampleScan : ScanResult :=
  ⟨"10.0.0.1", "dev1", 0, 0, 0, false, "pk", "3.1"⟩

/-- **C6 counterexample**: with two registered callbacks where the first
raises, the second never receives the fresh `ScanResult`: delivery to
"every other registered callback" fails. -/
theorem C6_counterexample :
    ¬ ∀ i < ([fun _ => CbRes.err, fun _ => CbRes.ok]
        : List (ScanResult → CbRes)).length,
      (i, sampleScan) ∈ (datagramReceived []
        [fun _ => CbRes.err, fun _ => CbRes.ok] sampleScan).2 := by
  decide

/-- **C6 (amended)**: an exception raised by a callback never propagates
past `datagram_received` (the `except: pass` there swallows it, so the
socket read loop is unaffected), but it is not isolated per callback: the
callbacks registered before the raising one receive the `ScanResult`, the
raising one is invoked, and every callback after it is skipped for that
result (which, having been recorded as seen, is never re-delivered). -/
theorem C6_callback_exception_scope (seen : List ScanResult)
    (cbs1 cbs2 : List (ScanResult → CbRes)) (cb : ScanResult → CbRes)
    (r : ScanResult) (hfresh : r ∉ seen)
    (hok : ∀ c ∈ cbs1, c r = CbRes.ok) (herr : cb r = CbRes.err) :
    datagramReceived seen (cbs1 ++ cb :: cbs2) r
        = (r :: seen, expectedUpTo cbs1.length 0 r)
      ∧ (onDeviceFoundWrapper seen (cbs1 ++ cb :: cbs2) r).2.2 = true
      ∧ (datagramReceived seen (cbs1 ++ cb :: cbs2) r).2
          = (List.range cbs1.length).map (fun j => (j, r)) ++ [(cbs1.length, r)] := by
  have h := runCbs_err_stops cbs1 cbs2 cb r 0 hok herr
  unfold datagramReceived onDeviceFoundWrapper
  rw [if_neg hfresh, h]
  refine ⟨rfl, rfl, ?_⟩
  rw [expectedUpTo_eq_range]
  simp only [Nat.zero_add]

/-- Witness for the amended C6: one ok callback, then a raising one, then
another ok callback. -/
theorem C6_callback_exception_scope_witness :
    datagramReceived [] ([fun _ => CbRes.ok]
        ++ (fun _ => CbRes.err) :: [fun _ => CbRes.ok]) sampleScan
        = (sampleScan :: [], expectedUpTo 1 0 sampleScan)
      ∧ (onDeviceFoundWrapper [] ([fun _ => CbRes.ok]
          ++ (fun _ => CbRes.err) :: [fun _ => CbRes.ok]) sampleScan).2.2 = true
      ∧ (datagramReceived [] ([fun _ => CbRes.ok]
          ++ (fun _ => CbRes.err) :: [fun _ => CbRes.ok]) sampleScan).2
          = (List.range 1).map (fun j => (j, sampleScan)) ++ [(1, sampleScan)] :=
  C6_callback_exception_scope [] [fun _ => CbRes.ok] [fun _ => CbRes.ok]
    (fun _ => CbRes.err) sampleScan (List.not_mem_nil _)
    (by intro c hc; simp only [List.mem_singleton] at hc; subst hc; rfl) rfl

/-- **C7**: deduplication on the full tuple: an already-seen `ScanResult`
is dropped silently; a fresh one is recorded and broadcast to every
registered (non-raising) callback; the same datagram fed twice delivers
exactly one result per callback, and two datagrams differing only in `ip`
deliver two. -/
theorem C7_dedup_and_broadcast (seen : List ScanResult)
    (cbs : List (ScanResult → CbRes)) (r : ScanResult) (ip2 : String)
    (hok : ∀ cb ∈ cbs, ∀ x, cb x = CbRes.ok) (hip : ip2 ≠ r.ip) :
    (r ∈ seen → datagramReceived seen cbs r = (seen, []))
    ∧ (r ∉ seen → datagramReceived seen cbs r
        = (r :: seen, (List.range cbs.length).map (fun j => (j, r))))
    ∧ processDatagrams cbs [] [r, r]
        = ([r], (List.range cbs.length).map (fun j => (j, r)))
    ∧ processDatagrams cbs [] [r, { r with ip := ip2 }]
        = ([{ r with ip := ip2 }, r],
            (List.range cbs.length).map (fun j => (j, r))
              ++ (List.range cbs.length).map (fun j => (j, { r with ip := ip2 }))) := by
  have hbro : ∀ (sn : List ScanResult) (x : ScanResult), x ∉ sn →
      datagramReceived sn cbs x
        = (x :: sn, (List.range cbs.length).map (fun j => (j, x))) := by
    intro sn x hx
    unfold datagramReceived onDeviceFoundWrapper
    rw [if_neg hx, runCbs_all_ok cbs x 0 (fun cb hc => hok cb hc x),
      expectedAll_eq_range]
    simp only [Nat.zero_add]
  have hdrop : ∀ (sn : List ScanResult) (x : ScanResult), x ∈ sn →
      datagramReceived sn cbs x = (sn, []) := by
    intro sn x hx
    unfold datagramReceived onDeviceFoundWrapper
    rw [if_pos hx]
  refine ⟨hdrop seen r, hbro seen r, ?_, ?_⟩
  · have e1 := hbro [] r (List.not_mem_nil r)
    have e2 := hdrop [r] r (by simp)
    simp [processDatagrams, e1, e2]
  · have hne : ({ r with ip := ip2 } : ScanResult) ≠ r := by
      intro h
      exact hip (congrArg ScanResult.ip h)
    have e1 := hbro [] r (List.not_mem_nil r)
    have e2 := hbro [r] { r with ip := ip2 } (by simp [hne])
    simp [processDatagrams, e1, e2]

/-- Witness for C7 with one registered callback and two addresses. -/
theorem C7_dedup_and_broadcast_witness :
    (sampleScan ∈ ([] : List ScanResult)
        → datagramReceived [] [fun _ => CbRes.ok] sampleScan = ([], []))
    ∧ (sampleScan ∉ ([] : List ScanResult)
        → datagramReceived [] [fun _ => CbRes.ok] sampleScan
          = ([sampleScan], (List.range 1).map (fun j => (j, sampleScan))))
    ∧ processDatagrams [fun _ => CbRes.ok] [] [sampleScan, sampleScan]
        = ([sampleScan], (List.range 1).map (fun j => (j, sampleScan)))
    ∧ processDatagrams [fun _ => CbRes.ok] []
          [sampleScan, { sampleScan with ip := "10.0.0.2" }]
        = ([{ sampleScan with ip := "10.0.0.2" }, sampleScan],
            (List.range 1).map (fun j => (j, sampleScan))
              ++ (List.range 1).map
                (fun j => (j, { sampleScan with ip := "10.0.0.2" }))) :=
  C7_dedup_and_broadcast [] [fun _ => CbRes.ok] sampleScan "10.0.0.2"
    (by intro c hc x; simp only [List.mem_singleton] at hc; subst hc; rfl)
    (by decide)

/-! ## Device model (`device.py`) -/

/-- `ValueRange` (a NamedTuple of ints). -/
structure ValueRange where
  min : Int
  max : Int
deriving DecidableEq

/-- Python `int()` applied to a float/rational: truncation toward zero.
(The float arithmetic of the final branch of `scale_value` is modelled
over `ℚ`; no claim exercises that branch.) -/
def pyInt (q : ℚ) : Int := if 0 ≤ q then q.floor else -((-q).floor)

/-- `scale_value(value1, range1, range2)`. -/
def scale_value (value1 : Int) (range1 range2 : ValueRange) : Int :=
  if range1 = range2 then value1
  else if value1 = range1.min then range2.min
  else if value1 = range1.max then range2.max
  else
    let factor : ℚ :=
      ((range2.max - range2.min : Int) : ℚ) / ((range1.max - range1.min : Int) : ℚ)
    pyInt ((range2.max : ℚ) - factor * ((range1.max - value1 : Int) : ℚ))

/-- A raw data-point value (bool, int, or string). -/
inductive DVal where
  | i : Int → DVal
  | s : String → DVal
  | b : Bool → DVal
deriving DecidableEq

/-- Python `dict[k]` as an association-list lookup (first binding wins). -/
def alistLookup {α : Type} (m : List (String × α)) (k : String) : Option α :=
  (m.find? (fun p => p.1 = k)).map (fun p => p.2)

/-- `dict[k] = v`: overwrite in place if present, else append. -/
def dictSet (m : List (String × DVal)) (k : String) (v : DVal) :
    List (String × DVal) :=
  if m.any (fun p => p.1 = k) then
    m.map (fun p => if p.1 = k then (k, v) else p)
  else m ++ [(k, v)]

/-- `dict.update(other)`. -/
def dictUpdate (m upd : List (String × DVal)) : List (String × DVal) :=
  upd.foldl (fun acc p => dictSet acc p.1 p.2) m

/-- The mutable per-device state of `TuyaDevice` that the claims concern:
`_data["ip"]`, the lazily derived code maps, `_state`, the consecutive
connection-failure counter, and the registered attribute codes. -/
structure TuyaDeviceM where
  ip : Option String
  nameToCode : Option (List (String × String))
  codeToName : Option (List (String × String))
  state : Option (List (String × DVal))
  failedConnect : Nat
  attributes : List String
deriving DecidableEq

/-- `TuyaDevice.assumed_state`: `self._failed_connect > 3`. -/
def assumed_state (d : TuyaDeviceM) : Bool := 3 < d.failedConnect

/-- `BRIGHTNESS_CODES = {BRIGHT_VALUE, BRIGHT_VALUE_V2}` (a Python set;
the list order here fixes one admissible `set.pop()` choice — the claims
below only exercise singleton intersections, where `pop` is
deterministic). -/
def BRIGHTNESS_CODES : List String := ["bright_value", "bright_value_v2"]

/-- `COLOR_TEMP_CODES = {TEMP_VALUE, TEMP_VALUE_V2}`. -/
def COLOR_TEMP_CODES : List String := ["temp_value", "temp_value_v2"]

/-- `CODES & attributes if attributes else None` followed by
`code.pop() if code else None`. -/
def codeFor (codes attrs : List String) : Option String :=
  (codes.filter (fun c => decide (c ∈ attrs))).head?

/-- `TuyaDevice.brightness_code`. -/
def brightness_code (d : TuyaDeviceM) : Option String :=
  codeFor BRIGHTNESS_CODES d.attributes

/-- `TuyaDevice.color_temp_code`. -/
def color_temp_code (d : TuyaDeviceM) : Option String :=
  codeFor COLOR_TEMP_CODES d.attributes

/-- The process-wide range configuration the getters read
(`_map_from_tuya` / `_map_to_tuya` entries used by brightness and color
temperature). -/
structure DeviceMaps where
  fromBrightness : ValueRange
  toBrightness : ValueRange
  fromColorTemp : ValueRange
  toColorTemp : ValueRange

/-- `TuyaDevice.brightness`: `if code and state and code in state:` then
`if code == BRIGHT_VALUE: return scale_value(state[code], t_range, range)`;
every other path returns `None`.  (A non-integer stored value would make
the Python arithmetic raise; it is modelled as `none` and not exercised
by any claim.) -/
def brightness (maps : DeviceMaps) (d : TuyaDeviceM) : Option Int :=
  match brightness_code d, d.state with
  | some code, some st =>
      if st ≠ [] ∧ (alistLookup st code).isSome then
        if code = "bright_value" then
          match alistLookup st code with
          | some (.i n) => some (scale_value n maps.toBrightness maps.fromBrightness)
          | _ => none
        else none
      else none
  | _, _ => none

/-- `TuyaDevice.set_brightness`: `{code: max(25, v)}` only for the
non-v2 `bright_value` code; `None` otherwise. -/
def set_brightness (maps : DeviceMaps) (d : TuyaDeviceM) (value : Int) :
    Option (List (String × DVal)) :=
  match brightness_code d with
  | some code =>
      if code = "bright_value" then
        some [(code, .i (max 25 (scale_value value maps.fromBrightness maps.toBrightness)))]
      else none
  | none => none

/-- `TuyaDevice.color_temp`. -/
def color_temp (maps : DeviceMaps) (d : TuyaDeviceM) : Option Int :=
  match color_temp_code d, d.state with
  | some code, some st =>
      if st ≠ [] ∧ (alistLookup st code).isSome then
        if code = "temp_value" then
          match alistLookup st code with
          | some (.i n) => some (scale_value n maps.toColorTemp maps.fromColorTemp)
          | _ => none
        else none
      else none
  | _, _ => none

/-- `TuyaDevice.set_color_temp`. -/
def set_color_temp (maps : DeviceMaps) (d : TuyaDeviceM) (value : Int) :
    Option (List (String × DVal)) :=
  match color_temp_code d with
  | some code =>
      if code = "temp_value" then
        some [(code, .i (scale_value value maps.fromColorTemp maps.toColorTemp))]
      else none
  | none => none

/-- Outcome of one `set_status` network exchange (the oracle for the
suspension point inside the retry loop). -/
inductive SetOutcome where
  | ok
  | connErr
  | exc
deriving DecidableEq

/-- The exceptions `set_state` raises before entering the retry loop:
`ValueError("No IP address")`, `ValueError("No DPS codes found yet...")`
(the spec's **NotReady**), and the `KeyError` from translating an unknown
attribute name. -/
inductive SetErr where
  | noIp
  | notReady
  | unknownName
deriving DecidableEq

/-- `{map[name]: value[name] for name in value}`: `none` models the
`KeyError` on a name missing from the derived map. -/
def translateNames (m : List (String × String)) (value : List (String × DVal)) :
    Option (List (String × DVal)) :=
  value.mapM (fun p => (alistLookup m p.1).map (fun c => (c, p.2)))

/-- `state = self._state; if state: state.update(value)` — Python treats
both `None` and the empty dict as falsy. -/
def applyOptimistic (st : Option (List (String × DVal)))
    (value : List (String × DVal)) : Option (List (String × DVal)) :=
  match st with
  | none => none
  | some s => if s.isEmpty then some s else some (dictUpdate s value)

/-- The `while attempt < max_attempt` retry loop of `set_state`, driven by
the outcome oracle `oc` (attempt number ↦ exchange outcome); `fuel` is
`max_attempt - attempt`.  Returns the success boolean and the device
state after the loop. -/
def setStateLoop (d : TuyaDeviceM) (value : List (String × DVal))
    (oc : Nat → SetOutcome) : Nat → Nat → Bool × TuyaDeviceM
  | _, 0 => (false, d)
  | attempt, fuel + 1 =>
      match oc attempt with
      | .ok => (true, { d with state := applyOptimistic d.state value })
      | .connErr => setStateLoop d value oc (attempt + 1) fuel
      | .exc => (false, d)

/-- `TuyaDevice.set_state` with `max_attempt = 2`. -/
def set_state (d : TuyaDeviceM) (value : List (String × DVal))
    (oc : Nat → SetOutcome) : Except SetErr (Bool × TuyaDeviceM) :=
  match d.ip with
  | none => .error .noIp
  | some _ =>
      match d.nameToCode with
      | none => .error .notReady
      | some m =>
          match translateNames m value with
          | none => .error .unknownName
          | some _ => .ok (setStateLoop d value oc 0 2)

/-- Outcome of one `status` network exchange during `fetch_state`. -/
inductive FetchOutcome where
  | ok : List (String × DVal) → FetchOutcome
  | connErr
  | exc

/-- `_create_code_name_maps`: zip the codes of this response with the
registered attribute order. -/
def createCodeNameMaps (codes attrs : List String) : List (String × String) :=
  codes.zip attrs

/-- `{map[code]: status[code] for code in status}`. -/
def translateCodes (m : List (String × String))
    (status : List (String × DVal)) : Option (List (String × DVal)) :=
  status.mapM (fun p => (alistLookup m p.1).map (fun n => (n, p.2)))

/-- `TuyaDevice.fetch_state` driven by the exchange outcome.  `none`
models an uncaught exception (`ValueError("No IP address")` before the
try, or the `KeyError` in the success branch when a returned code is not
in the map).  On connection failure the counter is bumped; on any other
exchange exception nothing changes; on success the state is replaced
wholesale, the counter reset, and — when no (non-empty) code map exists
yet, `map or self._create_code_name_maps(status)` — the maps are derived
by zipping. -/
def fetch_state (d : TuyaDeviceM) (oc : FetchOutcome) : Option TuyaDeviceM :=
  match d.ip with
  | none => none
  | some _ =>
      match oc with
      | .connErr => some { d with failedConnect := d.failedConnect + 1 }
      | .exc => some d
      | .ok status =>
          let m0 := d.codeToName.getD []
          if m0.isEmpty then
            let c2n := createCodeNameMaps (status.map (fun p => p.1)) d.attributes
            match translateCodes c2n status with
            | none => none
            | some newState =>
                some { d with
                  state := some newState
                  failedConnect := 0
                  codeToName := some c2n
                  nameToCode := some (c2n.map (fun p => (p.2, p.1))) }
          else
            match translateCodes m0 status with
            | none => none
            | some newState =>
                some { d with state := some newState, failedConnect := 0 }

/-- Iterate `fetch_state` over a list of exchange outcomes. -/
def fetchMany (d : TuyaDeviceM) : List FetchOutcome → Option TuyaDeviceM
  | [] => some d
  | o :: rest => (fetch_state d o).bind (fun d2 => fetchMany d2 rest)

/-- **C9**: `scale_value` is the identity on a range onto itself, and maps
endpoints to endpoints exactly for every pair of non-degenerate ranges
(these cases are handled by the three early returns, before any float
arithmetic). -/
theorem C9_scale_identity_and_endpoints (r r2 : ValueRange) (v : Int)
    (hv : r.min ≤ v ∧ v ≤ r.max) (h1 : r.min < r.max) (h2 : r2.min < r2.max) :
    scale_value v r r = v
    ∧ scale_value r.min r r2 = r2.min
    ∧ scale_value r.max r r2 = r2.max := by
  refine ⟨?_, ?_, ?_⟩
  · simp [scale_value]
  · by_cases h : r = r2
    · subst h; simp [scale_value]
    · unfold scale_value
      rw [if_neg h, if_pos rfl]
  · by_cases h : r = r2
    · subst h; simp [scale_value]
    · unfold scale_value
      rw [if_neg h, if_neg (by omega : ¬ (r.max = r.min)), if_pos rfl]

/-- Witness for C9 with ranges (0, 255) and (0, 100) at value 7. -/
theorem C9_scale_identity_and_endpoints_witness :
    scale_value 7 ⟨0, 255⟩ ⟨0, 255⟩ = 7
    ∧ scale_value (ValueRange.mk 0 255).min ⟨0, 255⟩ ⟨0, 100⟩ = (ValueRange.mk 0 100).min
    ∧ scale_value (ValueRange.mk 0 255).max ⟨0, 255⟩ ⟨0, 100⟩ = (ValueRange.mk 0 100).max :=
  C9_scale_identity_and_endpoints ⟨0, 255⟩ ⟨0, 100⟩ 7
    ⟨by decide, by decide⟩ (by decide) (by decide)

/-- **C10**: when only the v2 variant of a capability code is registered,
code resolution still reports the capability (the code getter returns the
v2 code), but the value getter returns `None` and the setter produces no
write, because the value paths only handle the non-v2 codes. -/
theorem C10_v2_codes_resolved_but_ignored (maps : DeviceMaps) (d : TuyaDeviceM)
    (v w : Int)
    (hb1 : "bright_value" ∉ d.attributes) (hb2 : "bright_value_v2" ∈ d.attributes)
    (ht1 : "temp_value" ∉ d.attributes) (ht2 : "temp_value_v2" ∈ d.attributes) :
    brightness_code d = some "bright_value_v2"
    ∧ brightness maps d = none
    ∧ set_brightness maps d v = none
    ∧ color_temp_code d = some "temp_value_v2"
    ∧ color_temp maps d = none
    ∧ set_color_temp maps d w = none := by
  have hbc : brightness_code d = some "bright_value_v2" := by
    simp [brightness_code, codeFor, BRIGHTNESS_CODES, hb1, hb2]
  have htc : color_temp_code d = some "temp_value_v2" := by
    simp [color_temp_code, codeFor, COLOR_TEMP_CODES, ht1, ht2]
  refine ⟨hbc, ?_, ?_, htc, ?_, ?_⟩
  · cases hst : d.state with
    | none => simp [brightness, hbc, hst]
    | some st => simp [brightness, hbc, hst, ite_self]
  · simp [set_brightness, hbc]
  · cases hst : d.state with
    | none => simp [color_temp, htc, hst]
    | some st => simp [color_temp, htc, hst, ite_self]
  · simp [set_color_temp, htc]

/-- Witness for C10 on a device registering only the v2 codes. -/
theorem C10_v2_codes_resolved_but_ignored_witness :
    brightness_code ⟨some "ip", none, none, none, 0,
        ["switch_led", "bright_value_v2", "temp_value_v2"]⟩ = some "bright_value_v2"
    ∧ brightness ⟨⟨0, 255⟩, ⟨0, 255⟩, ⟨0, 255⟩, ⟨0, 255⟩⟩
        ⟨some "ip", none, none, none, 0,
          ["switch_led", "bright_value_v2", "temp_value_v2"]⟩ = none
    ∧ set_brightness ⟨⟨0, 255⟩, ⟨0, 255⟩, ⟨0, 255⟩, ⟨0, 255⟩⟩
        ⟨some "ip", none, none, none, 0,
          ["switch_led", "bright_value_v2", "temp_value_v2"]⟩ 7 = none
    ∧ color_temp_code ⟨some "ip", none, none, none, 0,
        ["switch_led", "bright_value_v2", "temp_value_v2"]⟩ = some "temp_value_v2"
    ∧ color_temp ⟨⟨0, 255⟩, ⟨0, 255⟩, ⟨0, 255⟩, ⟨0, 255⟩⟩
        ⟨some "ip", none, none, none, 0,
          ["switch_led", "bright_value_v2", "temp_value_v2"]⟩ = none
    ∧ set_color_temp ⟨⟨0, 255⟩, ⟨0, 255⟩, ⟨0, 255⟩, ⟨0, 255⟩⟩
        ⟨some "ip", none, none, none, 0,
          ["switch_led", "bright_value_v2", "temp_value_v2"]⟩ 8 = none :=
  C10_v2_codes_resolved_but_ignored ⟨⟨0, 255⟩, ⟨0, 255⟩, ⟨0, 255⟩, ⟨0, 255⟩⟩
    ⟨some "ip", none, none, none, 0, ["switch_led", "bright_value_v2", "temp_value_v2"]⟩
    7 8 (by decide) (by decide) (by decide) (by decide)

theorem alistLookup_cons (p : String × DVal) (t : List (String × DVal)) (k : String) :
    alistLookup (p :: t) k = if p.1 = k then some p.2 else alistLookup t k := by
  unfold alistLookup
  by_cases hp : p.1 = k
  · rw [List.find?_cons_of_pos _ (by simp [hp]), if_pos hp]
    rfl
  · rw [List.find?_cons_of_neg _ (by simp [hp]), if_neg hp]

theorem alistLookup_map_set_ne (m : List (String × DVal)) (k1 k : String)
    (v1 : DVal) (h : ¬ (k1 = k)) :
    alistLookup (m.map (fun p => if p.1 = k1 then (k1, v1) else p)) k
      = alistLookup m k := by
  induction m with
  | nil => rfl
  | cons p t ih =>
      rw [List.map_cons, alistLookup_cons, alistLookup_cons]
      by_cases hp : p.1 = k1
      · rw [if_pos hp]
        have hpk : ¬ (p.1 = k) := by rw [hp]; exact h
        rw [if_neg hpk, if_neg (show ¬ (((k1, v1) : String × DVal).1 = k) from h), ih]
      · rw [if_neg hp]
        by_cases hpk : p.1 = k
        · rw [if_pos hpk, if_pos hpk]
        · rw [if_neg hpk, if_neg hpk, ih]

theorem alistLookup_append_single_ne (m : List (String × DVal)) (k1 k : String)
    (v1 : DVal) (h : ¬ (k1 = k)) :
    alistLookup (m ++ [(k1, v1)]) k = alistLookup m k := by
  induction m with
  | nil =>
      rw [List.nil_append, alistLookup_cons,
        if_neg (show ¬ (((k1, v1) : String × DVal).1 = k) from h)]
  | cons p t ih =>
      rw [List.cons_append, alistLookup_cons, alistLookup_cons]
      by_cases hpk : p.1 = k
      · rw [if_pos hpk, if_pos hpk]
      · rw [if_neg hpk, if_neg hpk, ih]

theorem alistLookup_dictSet_ne (m : List (String × DVal)) (k1 k : String)
    (v1 : DVal) (h : ¬ (k1 = k)) :
    alistLookup (dictSet m k1 v1) k = alistLookup m k := by
  unfold dictSet
  split
  · exact alistLookup_map_set_ne m k1 k v1 h
  · exact alistLookup_append_single_ne m k1 k v1 h

/-- `state.update(value)` leaves every key not written by `value`
unchanged: the update merges, it does not replace. -/
theorem alistLookup_dictUpdate_not_written (st v : List (String × DVal))
    (k : String) (hk : ∀ p ∈ v, ¬ (p.1 = k)) :
    alistLookup (dictUpdate st v) k = alistLookup st k := by
  induction v generalizing st with
  | nil => rfl
  | cons p rest ih =>
      have hstep : dictUpdate st (p :: rest) = dictUpdate (dictSet st p.1 p.2) rest := rfl
      rw [hstep, ih (dictSet st p.1 p.2) (fun q hq => hk q (List.mem_cons_of_mem _ hq))]
      exact alistLookup_dictSet_ne st p.1 k p.2 (hk p (List.mem_cons_self _ _))

/-- **C5**: a `set_state` call on a device (with an address) whose derived
name→code map does not exist yet fails immediately with the NotReady
error; when the map exists, the exchange is attempted at most twice,
retrying only on connection failure: on success the written values are
merged (not replaced) into the local state and `True` is returned, on any
other exception the call aborts immediately with `False`, and two
connection failures exhaust the attempts and return `False`. -/
theorem C5_set_state_behavior (dn d : TuyaDeviceM) (ipn ipa : String)
    (v tr st : List (String × DVal)) (m : List (String × String))
    (oc : Nat → SetOutcome)
    (h1 : dn.ip = some ipn) (h2 : dn.nameToCode = none)
    (h3 : d.ip = some ipa) (h4 : d.nameToCode = some m)
    (h5 : translateNames m v = some tr)
    (h6 : d.state = some st) (h7 : st ≠ []) :
    set_state dn v oc = .error .notReady
    ∧ (oc 0 = .ok →
        set_state d v oc = .ok (true, { d with state := some (dictUpdate st v) }))
    ∧ (oc 0 = .connErr → oc 1 = .ok →
        set_state d v oc = .ok (true, { d with state := some (dictUpdate st v) }))
    ∧ (oc 0 = .connErr → oc 1 = .connErr → set_state d v oc = .ok (false, d))
    ∧ (oc 0 = .exc → set_state d v oc = .ok (false, d))
    ∧ (oc 0 = .connErr → oc 1 = .exc → set_state d v oc = .ok (false, d))
    ∧ (∀ k, (∀ p ∈ v, ¬ (p.1 = k)) →
        alistLookup (dictUpdate st v) k = alistLookup st k) := by
  obtain ⟨a, t, rfl⟩ : ∃ a t, st = a :: t := by
    cases st with
    | nil => exact absurd rfl h7
    | cons a t => exact ⟨a, t, rfl⟩
  have hred : set_state d v oc = .ok (setStateLoop d v oc 0 2) := by
    unfold set_state
    rw [h3, h4]
    simp [h5]
  refine ⟨?_, ?_, ?_, ?_, ?_, ?_, ?_⟩
  · unfold set_state
    rw [h1, h2]
  · intro h0
    rw [hred]
    simp [setStateLoop, h0, applyOptimistic, h6]
  · intro h0 h1c
    rw [hred]
    simp [setStateLoop, h0, h1c, applyOptimistic, h6]
  · intro h0 h1c
    rw [hred]
    simp [setStateLoop, h0, h1c]
  · intro h0
    rw [hred]
    simp [setStateLoop, h0]
  · intro h0 h1c
    rw [hred]
    simp [setStateLoop, h0, h1c]
  · intro k hk
    exact alistLookup_dictUpdate_not_written (a :: t) v k hk

/-- A device with an address but no derived code maps yet. -/
def dC5n : TuyaDeviceM := ⟨some "ip", none, none, none, 0, []⟩

/-- A device with an address, a derived name→code map and a state. -/
def dC5 : TuyaDeviceM :=
  ⟨some "ip", some [("power", "1")], none,
    some [("power", DVal.b false), ("other", DVal.i 5)], 0, ["power"]⟩

/-- The write issued in the C5 witness. -/
def vC5 : List (String × DVal) := [("power", DVal.b true)]

/-- The prior state in the C5 witness. -/
def stC5 : List (String × DVal) := [("power", DVal.b false), ("other", DVal.i 5)]

/-- Witness for C5 with an always-succeeding exchange oracle. -/
theorem C5_set_state_behavior_witness :
    set_state dC5n vC5 (fun _ => SetOutcome.ok) = .error .notReady
    ∧ ((fun _ => SetOutcome.ok) 0 = SetOutcome.ok →
        set_state dC5 vC5 (fun _ => SetOutcome.ok)
          = .ok (true, { dC5 with state := some (dictUpdate stC5 vC5) }))
    ∧ ((fun _ => SetOutcome.ok) 0 = SetOutcome.connErr →
        (fun _ => SetOutcome.ok) 1 = SetOutcome.ok →
        set_state dC5 vC5 (fun _ => SetOutcome.ok)
          = .ok (true, { dC5 with state := some (dictUpdate stC5 vC5) }))
    ∧ ((fun _ => SetOutcome.ok) 0 = SetOutcome.connErr →
        (fun _ => SetOutcome.ok) 1 = SetOutcome.connErr →
        set_state dC5 vC5 (fun _ => SetOutcome.ok) = .ok (false, dC5))
    ∧ ((fun _ => SetOutcome.ok) 0 = SetOutcome.exc →
        set_state dC5 vC5 (fun _ => SetOutcome.ok) = .ok (false, dC5))
    ∧ ((fun _ => SetOutcome.ok) 0 = SetOutcome.connErr →
        (fun _ => SetOutcome.ok) 1 = SetOutcome.exc →
        set_state dC5 vC5 (fun _ => SetOutcome.ok) = .ok (false, dC5))
    ∧ (∀ k, (∀ p ∈ vC5, ¬ (p.1 = k)) →
        alistLookup (dictUpdate stC5 vC5) k = alistLookup stC5 k) :=
  C5_set_state_behavior dC5n dC5 "ip" "ip" vC5 [("1", DVal.b true)] stC5
    [("power", "1")] (fun _ => SetOutcome.ok)
    rfl rfl rfl rfl rfl rfl (by decide)

/-- **C8**: a fetch failing with a connection error bumps the consecutive
failure counter and returns normally; any other exchange exception is
swallowed with the device unchanged; a successful fetch replaces the
state and resets the counter to 0; the assumed-state flag holds exactly
when the counter exceeds 3, so four consecutive connection failures flip
it to true and one success resets it to false. -/
theorem C8_fetch_failure_handling (d : TuyaDeviceM) (ipa : String)
    (status ns : List (String × DVal)) (m0 : List (String × String))
    (hip : d.ip = some ipa)
    (hm : d.codeToName = some m0) (hne : m0.isEmpty = false)
    (htr : translateCodes m0 status = some ns) :
    fetch_state d .connErr = some { d with failedConnect := d.failedConnect + 1 }
    ∧ fetch_state d .exc = some d
    ∧ fetch_state d (.ok status) = some { d with state := some ns, failedConnect := 0 }
    ∧ (assumed_state d = true ↔ 3 < d.failedConnect)
    ∧ fetchMany d (List.replicate 4 .connErr)
        = some { d with failedConnect := d.failedConnect + 4 }
    ∧ (d.failedConnect = 0 →
        (fetchMany d (List.replicate 4 .connErr)).map assumed_state = some true)
    ∧ ((fetchMany d (List.replicate 4 .connErr)).bind
          (fun d4 => fetch_state d4 (.ok status))).map assumed_state = some false := by
  have s1 : ∀ (d2 : TuyaDeviceM), d2.ip = some ipa →
      fetch_state d2 .connErr
        = some { d2 with failedConnect := d2.failedConnect + 1 } := by
    intro d2 h2ip
    unfold fetch_state
    rw [h2ip]
  have hx : fetch_state d .exc = some d := by
    unfold fetch_state
    rw [hip]
  have hok : ∀ (d2 : TuyaDeviceM), d2.ip = some ipa → d2.codeToName = some m0 →
      fetch_state d2 (.ok status)
        = some { d2 with state := some ns, failedConnect := 0 } := by
    intro d2 h2ip h2m
    unfold fetch_state
    rw [h2ip, h2m]
    simp [hne, htr]
  have key : ∀ (n : Nat) (d2 : TuyaDeviceM), d2.ip = some ipa →
      fetchMany d2 (List.replicate n .connErr)
        = some { d2 with failedConnect := d2.failedConnect + n } := by
    intro n
    induction n with
    | zero =>
        intro d2 _
        show some d2 = _
        rfl
    | succ k ih =>
        intro d2 h2
        have hr : List.replicate (k + 1) FetchOutcome.connErr
            = FetchOutcome.connErr :: List.replicate k FetchOutcome.connErr := rfl
        rw [hr]
        have hstep : fetchMany d2 (FetchOutcome.connErr :: List.replicate k .connErr)
            = (fetch_state d2 .connErr).bind
                (fun x => fetchMany x (List.replicate k .connErr)) := rfl
        rw [hstep, s1 d2 h2, Option.some_bind]
        have h3 : ({ d2 with failedConnect := d2.failedConnect + 1 }
            : TuyaDeviceM).ip = some ipa := by simpa using h2
        rw [ih _ h3]
        simp only [Option.some.injEq, TuyaDeviceM.mk.injEq, and_true, true_and]
        omega
  have hmany := key 4 d hip
  refine ⟨s1 d hip, hx, hok d hip hm, ?_, hmany, ?_, ?_⟩
  · simp [assumed_state]
  · intro h0
    rw [hmany]
    simp [assumed_state, h0]
  · rw [hmany, Option.some_bind]
    rw [hok { d with failedConnect := d.failedConnect + 4 } (by simpa using hip)
      (by simpa using hm)]
    simp [assumed_state]

/-- A device with an address and an already-derived code→name map. -/
def dC8 : TuyaDeviceM :=
  ⟨some "ip", some [("n1", "c1")], some [("c1", "n1")], some [], 0, ["n1"]⟩

/-- Witness for C8 on a one-attribute device. -/
theorem C8_fetch_failure_handling_witness :
    fetch_state dC8 .connErr = some { dC8 with failedConnect := dC8.failedConnect + 1 }
    ∧ fetch_state dC8 .exc = some dC8
    ∧ fetch_state dC8 (.ok [("c1", DVal.b true)])
        = some { dC8 with state := some [("n1", DVal.b true)], failedConnect := 0 }
    ∧ (assumed_state dC8 = true ↔ 3 < dC8.failedConnect)
    ∧ fetchMany dC8 (List.replicate 4 .connErr)
        = some { dC8 with failedConnect := dC8.failedConnect + 4 }
    ∧ (dC8.failedConnect = 0 →
        (fetchMany dC8 (List.replicate 4 .connErr)).map assumed_state = some true)
    ∧ ((fetchMany dC8 (List.replicate 4 .connErr)).bind
          (fun d4 => fetch_state d4 (.ok [("c1", DVal.b true)]))).map assumed_state
        = some false :=
  C8_fetch_failure_handling dC8 "ip" [("c1", DVal.b true)] [("n1", DVal.b true)]
    [("c1", "n1")] rfl rfl rfl rfl
